import Mathlib

/-!
Verification development for the multilingual subtitle generator
(`src/app.py`).  The Python functions `format_timestamp`,
`translate_segments`, `create_vtt` and `extract_audio` are shallowly
embedded below.  Python floating-point seconds values are modelled as
rationals; Python `//`, `%` and `int(...)` on numbers are modelled by
`pyFloorDiv`, `pyMod` and `pytrunc`.
-/

/-- Python `a // b` on numbers: floor of the exact quotient, returned as a
number (the result of float floor-division is an integral value). -/
def pyFloorDiv (a b : ℚ) : ℚ := ((⌊a / b⌋ : ℤ) : ℚ)

/-- Python `a % b` on numbers: `a - b * (a // b)`. -/
def pyMod (a b : ℚ) : ℚ := a - b * ((⌊a / b⌋ : ℤ) : ℚ)

/-- Python `int(x)`: truncation toward zero. -/
def pytrunc (q : ℚ) : ℤ := if 0 ≤ q then ⌊q⌋ else ⌈q⌉

/-- Decimal digit character: `'0'` + d. -/
def digitChar10 (d : ℕ) : Char := Char.ofNat (48 + d)

/-- Fuel-indexed accumulation of the decimal digits of `n`, most
significant first. -/
def natReprAux : ℕ → ℕ → List Char
  | 0, _ => []
  | fuel + 1, n =>
    if n = 0 then [] else natReprAux fuel (n / 10) ++ [digitChar10 (n % 10)]

/-- Decimal rendering of a natural number, as Python renders it. -/
def natRepr (n : ℕ) : String :=
  if n = 0 then "0" else String.mk (natReprAux (n + 1) n)

/-- Python `f"{n:0wd}"` for a natural number: decimal digits, left-padded
with zeros to at least `w` characters. -/
def padNat (w : ℕ) (n : ℕ) : String :=
  let s := natRepr n
  if s.length < w then String.mk (List.replicate (w - s.length) '0') ++ s
  else s

/-- Python `f"{i:0wd}"` for an integer: a leading minus sign counts toward
the width. -/
def padInt (w : ℕ) (i : ℤ) : String :=
  if i < 0 then "-" ++ padNat (w - 1) i.natAbs else padNat w i.toNat

/-- `format_timestamp` from `src/app.py` (lines 54-60):
`hrs = int(seconds // 3600)`, `mins = int((seconds % 3600) // 60)`,
`secs = int(seconds % 60)`, `ms = int((seconds * 1000) % 1000)`,
rendered as `f"{hrs:02}:{mins:02}:{secs:02}.{ms:03}"`. -/
def format_timestamp (seconds : ℚ) : String :=
  let hrs := pytrunc (pyFloorDiv seconds 3600)
  let mins := pytrunc (pyFloorDiv (pyMod seconds 3600) 60)
  let secs := pytrunc (pyMod seconds 60)
  let ms := pytrunc (pyMod (seconds * 1000) 1000)
  padInt 2 hrs ++ ":" ++ padInt 2 mins ++ ":" ++ padInt 2 secs ++ "." ++ padInt 3 ms

/-- `format_timestamp` as the specification words it (§4.4): hours
`⌊seconds / 3600⌋`, minutes `⌊(seconds % 3600) / 60⌋`, whole seconds
`⌊seconds % 60⌋`, milliseconds `⌊(seconds * 1000) % 1000⌋` (truncation,
which on non-negative values is the floor), each written with its `%`
expanded to `a - b * ⌊a / b⌋`, rendered `HH:MM:SS.mmm` with `HH`, `MM`,
`SS` zero-padded to at least 2 digits and `mmm` to at least 3. -/
def spec_format_timestamp (s : ℚ) : String :=
  let hh : ℤ := ⌊s / 3600⌋
  let mm : ℤ := ⌊(s - 3600 * ((⌊s / 3600⌋ : ℤ) : ℚ)) / 60⌋
  let ss : ℤ := ⌊s - 60 * ((⌊s / 60⌋ : ℤ) : ℚ)⌋
  let mmm : ℤ := ⌊s * 1000 - 1000 * ((⌊s * 1000 / 1000⌋ : ℤ) : ℚ)⌋
  padInt 2 hh ++ ":" ++ padInt 2 mm ++ ":" ++ padInt 2 ss ++ "." ++ padInt 3 mmm

/-- A transcribed (or translated) segment: `{start, end, text}` as
produced by `transcribe_audio` and by the dictionaries built in
`translate_segments` (lines 38-42 of `src/app.py`). -/
structure Segment where
  start : ℚ
  «end» : ℚ
  text : String
deriving Repr, DecidableEq

/-- `translate_segments` from `src/app.py` (lines 33-43).  The external
`translator.translate(seg.text, dest=target_lang).text` call is a
parameter `tr`; a raised exception is an `Except.error`, which propagates
out of the loop exactly where Python would abort it. -/
def translate_segments (tr : String → String → Except String String)
    (segments : List Segment) (target_lang : String) :
    Except String (List Segment) :=
  match segments with
  | [] => Except.ok []
  | seg :: rest =>
    match tr seg.text target_lang with
    | Except.error e => Except.error e
    | Except.ok text =>
      match translate_segments tr rest target_lang with
      | Except.error e => Except.error e
      | Except.ok restOut =>
        Except.ok ({ start := seg.start, «end» := seg.«end», text := text } :: restOut)

/-- The string written by one iteration of the loop body of `create_vtt`
(line 52 of `src/app.py`):
`f"{start_time} --> {end_time}\n{seg['text']}\n\n"`. -/
def cueBlock (seg : Segment) : String :=
  format_timestamp seg.start ++ " --> " ++ format_timestamp seg.«end» ++ "\n"
    ++ seg.text ++ "\n\n"

/-- `create_vtt` from `src/app.py` (lines 45-52), modelled as the full
contents written to the file: first `"WEBVTT\n\n"`, then one cue block
appended per segment, in order. -/
def create_vtt (segments : List Segment) : String :=
  segments.foldl (fun acc seg => acc ++ cueBlock seg) "WEBVTT\n\n"

/-- Concatenation of a list of strings, in order. -/
def strConcat : List String → String
  | [] => ""
  | s :: rest => s ++ strConcat rest

/-- The translation-then-emission tail of the pipeline (lines 90-94 of
`src/app.py`): `translate_segments` followed, only on success, by
`create_vtt`; the result is the subtitle file contents. -/
def subtitle_job (tr : String → String → Except String String)
    (segments : List Segment) (target_lang : String) : Except String String :=
  match translate_segments tr segments target_lang with
  | Except.error e => Except.error e
  | Except.ok translated => Except.ok (create_vtt translated)

/-- Outcome of handing a command line to the operating system: either the
executable runs to completion with some exit code, or it cannot be found. -/
inductive RunOutcome where
  | completed (returncode : ℤ)
  | execNotFound
deriving Repr, DecidableEq

/-- The Python exceptions relevant to `extract_audio`. -/
inductive PyExc where
  | fileNotFoundError
deriving Repr, DecidableEq

/-- `subprocess.run(cmd, stdout=DEVNULL, stderr=DEVNULL)` as used on line
26 of `src/app.py`: `check` is not passed (defaults to `False`), so a
completed process is returned whatever its exit code; but if the
executable cannot be found, `FileNotFoundError` is raised. -/
def subprocess_run (env : List String → RunOutcome) (cmd : List String) :
    Except PyExc ℤ :=
  match env cmd with
  | RunOutcome.execNotFound => Except.error PyExc.fileNotFoundError
  | RunOutcome.completed rc => Except.ok rc

/-- `extract_audio` from `src/app.py` (lines 23-26): build the ffmpeg
command line and run it, ignoring the returned process object. -/
def extract_audio (env : List String → RunOutcome)
    (video_path audio_path : String) : Except PyExc Unit :=
  match subprocess_run env
      ["ffmpeg", "-y", "-i", video_path, "-vn", "-acodec", "mp3", audio_path] with
  | Except.error e => Except.error e
  | Except.ok _ => Except.ok ()

/-- Number of newline characters in a string. -/
def nlCount (s : String) : ℕ := s.data.count '\n'

lemma pytrunc_intCast (k : ℤ) : pytrunc ((k : ℚ)) = k := by
  unfold pytrunc
  split <;> simp

lemma pyMod_eq_mul_fract (a b : ℚ) (hb : b ≠ 0) :
    pyMod a b = b * Int.fract (a / b) := by
  unfold pyMod Int.fract
  field_simp

lemma pyMod_nonneg (a b : ℚ) (hb : 0 < b) : 0 ≤ pyMod a b := by
  rw [pyMod_eq_mul_fract a b (ne_of_gt hb)]
  exact mul_nonneg hb.le (Int.fract_nonneg _)

lemma pytrunc_of_nonneg (q : ℚ) (h : 0 ≤ q) : pytrunc q = ⌊q⌋ := if_pos h

lemma pytrunc_pyFloorDiv (a b : ℚ) : pytrunc (pyFloorDiv a b) = ⌊a / b⌋ := by
  rw [pyFloorDiv, pytrunc_intCast]

lemma pytrunc_pyMod (a b : ℚ) (hb : 0 < b) : pytrunc (pyMod a b) = ⌊pyMod a b⌋ :=
  pytrunc_of_nonneg _ (pyMod_nonneg a b hb)

/-- C1: for every non-negative seconds value, `format_timestamp` returns
the `HH:MM:SS.mmm` rendering obtained from the spec's decomposition into
hours `⌊s / 3600⌋`, minutes `⌊(s % 3600) / 60⌋`, whole seconds
`⌊s % 60⌋` and milliseconds `⌊(s * 1000) % 1000⌋`, each
integer-truncated, with the stated zero-padding; in particular
`format_timestamp 0 = "00:00:00.000"` and
`format_timestamp 3661.5 = "01:01:01.500"`. -/
theorem format_timestamp_matches_spec :
    (∀ s : ℚ, 0 ≤ s → format_timestamp s = spec_format_timestamp s) ∧
    format_timestamp 0 = "00:00:00.000" ∧
    format_timestamp (3661.5 : ℚ) = "01:01:01.500" := by
  refine ⟨fun s _ => ?_, ?_, ?_⟩
  · simp only [format_timestamp, spec_format_timestamp, pytrunc_pyFloorDiv]
    rw [pytrunc_pyMod _ _ (by norm_num : (0:ℚ) < 60),
      pytrunc_pyMod _ _ (by norm_num : (0:ℚ) < 1000)]
    simp only [pyMod]
  · simp only [format_timestamp, pyFloorDiv, pyMod, pytrunc]
    norm_num
    decide
  · simp only [format_timestamp, pyFloorDiv, pyMod, pytrunc]
    norm_num
    decide

/-- Witness for C1: the refinement instantiated at `3661.5`. -/
theorem format_timestamp_matches_spec_witness :
    (0:ℚ) ≤ (3661.5 : ℚ) ∧
    format_timestamp (3661.5 : ℚ) = spec_format_timestamp (3661.5 : ℚ) :=
  ⟨by norm_num, format_timestamp_matches_spec.1 (3661.5 : ℚ) (by norm_num)⟩

lemma create_vtt_foldl (segs : List Segment) (acc : String) :
    segs.foldl (fun a seg => a ++ cueBlock seg) acc
      = acc ++ strConcat (segs.map cueBlock) := by
  induction segs generalizing acc with
  | nil => simp [strConcat]
  | cons seg rest ih =>
    simp only [List.foldl_cons, List.map_cons, strConcat, ih,
      String.append_assoc]

lemma translate_segments_ok_spec (tr : String → String → Except String String)
    (lang : String) :
    ∀ (segs out : List Segment),
      translate_segments tr segs lang = Except.ok out →
      out.length = segs.length ∧
      ∀ (i : ℕ) (h1 : i < segs.length) (h2 : i < out.length),
        (out.get ⟨i, h2⟩).start = (segs.get ⟨i, h1⟩).start ∧
        (out.get ⟨i, h2⟩).«end» = (segs.get ⟨i, h1⟩).«end» ∧
        tr (segs.get ⟨i, h1⟩).text lang = Except.ok ((out.get ⟨i, h2⟩).text) := by
  intro segs
  induction segs with
  | nil =>
    intro out h
    simp only [translate_segments, Except.ok.injEq] at h
    subst h
    exact ⟨rfl, fun i h1 => absurd h1 (by simp)⟩
  | cons seg rest ih =>
    intro out h
    simp only [translate_segments] at h
    cases htr : tr seg.text lang with
    | error e => rw [htr] at h; exact absurd h (by simp)
    | ok t =>
      rw [htr] at h
      cases hrec : translate_segments tr rest lang with
      | error e => rw [hrec] at h; exact absurd h (by simp)
      | ok restOut =>
        rw [hrec] at h
        simp only [Except.ok.injEq] at h
        subst h
        obtain ⟨ihlen, ihget⟩ := ih restOut hrec
        refine ⟨by simp [ihlen], ?_⟩
        intro i h1 h2
        cases i with
        | zero => exact ⟨rfl, rfl, by simpa using htr⟩
        | succ j =>
          exact ihget j (by simpa using h1) (by simpa using h2)

lemma translate_segments_error_of_mem
    (tr : String → String → Except String String) (lang : String) :
    ∀ segs : List Segment,
      (∃ seg ∈ segs, ∃ e, tr seg.text lang = Except.error e) →
      ∃ e, translate_segments tr segs lang = Except.error e := by
  intro segs
  induction segs with
  | nil => rintro ⟨seg, hmem, -⟩; exact absurd hmem (by simp)
  | cons seg rest ih =>
    rintro ⟨badSeg, hmem, e, he⟩
    cases htr : tr seg.text lang with
    | error e0 => exact ⟨e0, by simp [translate_segments, htr]⟩
    | ok t =>
      rcases List.mem_cons.mp hmem with rfl | hmemRest
      · rw [htr] at he; exact absurd he (by simp)
      · obtain ⟨e1, he1⟩ := ih ⟨badSeg, hmemRest, e, he⟩
        exact ⟨e1, by simp [translate_segments, htr, he1]⟩

/-- C2: `format_timestamp` truncates fractional milliseconds rather than
rounding: `59.9999 ↦ "00:00:59.999"` and `1.9995 ↦ "00:00:01.999"`, not
`"00:00:02.000"`. -/
theorem format_timestamp_truncates :
    format_timestamp (59.9999 : ℚ) = "00:00:59.999" ∧
    format_timestamp (1.9995 : ℚ) = "00:00:01.999" ∧
    format_timestamp (1.9995 : ℚ) ≠ "00:00:02.000" := by
  refine ⟨?_, ?_, ?_⟩ <;>
    · simp only [format_timestamp, pyFloorDiv, pyMod, pytrunc]
      norm_num
      decide

/-- C3: segment count and order are preserved end-to-end: a successful
`translate_segments` run returns exactly as many segments as it was
given, and `create_vtt` emits exactly one cue block per translated
segment, in the same order (header followed by the in-order
concatenation of the per-segment blocks). -/
theorem translate_create_preserve_count
    (tr : String → String → Except String String) (segs : List Segment)
    (lang : String) (out : List Segment)
    (h : translate_segments tr segs lang = Except.ok out) :
    out.length = segs.length ∧
    (out.map cueBlock).length = segs.length ∧
    create_vtt out = "WEBVTT\n\n" ++ strConcat (out.map cueBlock) := by
  obtain ⟨hlen, -⟩ := translate_segments_ok_spec tr lang segs out h
  exact ⟨hlen, by simp [hlen], create_vtt_foldl out "WEBVTT\n\n"⟩

/-- Witness for C3: one segment, identity-like translation. -/
theorem translate_create_preserve_count_witness :
    ([(⟨0, 1, "hi!"⟩ : Segment)]).length = ([(⟨0, 1, "hi"⟩ : Segment)]).length ∧
    (([(⟨0, 1, "hi!"⟩ : Segment)]).map cueBlock).length
      = ([(⟨0, 1, "hi"⟩ : Segment)]).length ∧
    create_vtt [(⟨0, 1, "hi!"⟩ : Segment)]
      = "WEBVTT\n\n" ++ strConcat (([(⟨0, 1, "hi!"⟩ : Segment)]).map cueBlock) :=
  translate_create_preserve_count (fun s _ => Except.ok (s ++ "!"))
    [⟨0, 1, "hi"⟩] "fr" [⟨0, 1, "hi!"⟩] rfl

/-- C4: translation never changes timing: each output segment of a
successful `translate_segments` run copies `start` and `end` verbatim
from the corresponding input segment, and only its `text` is replaced by
the translation of the input segment's text. -/
theorem translate_preserves_timing
    (tr : String → String → Except String String) (segs : List Segment)
    (lang : String) (out : List Segment)
    (h : translate_segments tr segs lang = Except.ok out) :
    ∀ (i : ℕ) (h1 : i < segs.length) (h2 : i < out.length),
      (out.get ⟨i, h2⟩).start = (segs.get ⟨i, h1⟩).start ∧
      (out.get ⟨i, h2⟩).«end» = (segs.get ⟨i, h1⟩).«end» ∧
      tr (segs.get ⟨i, h1⟩).text lang = Except.ok ((out.get ⟨i, h2⟩).text) :=
  (translate_segments_ok_spec tr lang segs out h).2

/-- Witness for C4: one segment, index 0. -/
theorem translate_preserves_timing_witness :
    (([(⟨2, 3, "ab?"⟩ : Segment)]).get ⟨0, by decide⟩).start
      = (([(⟨2, 3, "ab"⟩ : Segment)]).get ⟨0, by decide⟩).start ∧
    (([(⟨2, 3, "ab?"⟩ : Segment)]).get ⟨0, by decide⟩).«end»
      = (([(⟨2, 3, "ab"⟩ : Segment)]).get ⟨0, by decide⟩).«end» ∧
    (fun s _ => (Except.ok (s ++ "?") : Except String String))
        (([(⟨2, 3, "ab"⟩ : Segment)]).get ⟨0, by decide⟩).text "de"
      = Except.ok ((([(⟨2, 3, "ab?"⟩ : Segment)]).get ⟨0, by decide⟩).text) :=
  translate_preserves_timing (fun s _ => Except.ok (s ++ "?"))
    [⟨2, 3, "ab"⟩] "de" [⟨2, 3, "ab?"⟩] rfl 0 (by decide) (by decide)

/-- C5: the file written by `create_vtt` begins with the literal line
`WEBVTT` followed by a blank line, then, for each segment in input
order, one block `<start> --> <end>\n<text>\n\n` with `<start>` and
`<end>` the `format_timestamp` renderings of the segment's `start` and
`end`. -/
theorem create_vtt_layout (segs : List Segment) :
    create_vtt segs = "WEBVTT\n\n"
      ++ strConcat (segs.map (fun seg =>
          format_timestamp seg.start ++ " --> " ++ format_timestamp seg.«end»
            ++ "\n" ++ seg.text ++ "\n\n")) :=
  create_vtt_foldl segs "WEBVTT\n\n"

/-- C9: on the empty segment sequence, `create_vtt` writes exactly the
header line and one blank line, with no cue blocks. -/
theorem create_vtt_empty : create_vtt ([] : List Segment) = "WEBVTT\n\n" := rfl

lemma nlCount_append (a b : String) :
    nlCount (a ++ b) = nlCount a + nlCount b := by
  simp [nlCount, String.data_append, List.count_append]

lemma digitChar10_ne_newline (d : ℕ) (h : d < 10) : digitChar10 d ≠ '\n' := by
  interval_cases d <;> decide

lemma natReprAux_no_newline :
    ∀ (fuel n : ℕ), List.count '\n' (natReprAux fuel n) = 0 := by
  intro fuel
  induction fuel with
  | zero => intro n; rfl
  | succ f ih =>
    intro n
    rw [natReprAux]
    split
    · rfl
    · have hd : digitChar10 (n % 10) ≠ '\n' :=
        digitChar10_ne_newline _ (Nat.mod_lt n (by norm_num))
      rw [List.count_append, ih]
      simp [List.count_cons, Ne.symm hd]

lemma nlCount_natRepr (n : ℕ) : nlCount (natRepr n) = 0 := by
  unfold natRepr nlCount
  split
  · rfl
  · exact natReprAux_no_newline _ _

lemma nlCount_padNat (w n : ℕ) : nlCount (padNat w n) = 0 := by
  simp only [padNat]
  split
  · rw [nlCount_append, nlCount_natRepr]
    simp [nlCount, List.count_replicate]
  · exact nlCount_natRepr n

lemma nlCount_padInt (w : ℕ) (i : ℤ) : nlCount (padInt w i) = 0 := by
  unfold padInt
  split
  · rw [nlCount_append, nlCount_padNat]
    decide
  · exact nlCount_padNat _ _

lemma nlCount_format_timestamp (s : ℚ) : nlCount (format_timestamp s) = 0 := by
  simp only [format_timestamp]
  simp [nlCount_append, nlCount_padInt,
    (by decide : nlCount ":" = 0), (by decide : nlCount "." = 0)]

lemma nlCount_cueBlock (seg : Segment) :
    nlCount (cueBlock seg) = nlCount seg.text + 3 := by
  simp only [cueBlock]
  simp [nlCount_append, nlCount_format_timestamp,
    (by decide : nlCount " --> " = 0), (by decide : nlCount "\n" = 1),
    (by decide : nlCount "\n\n" = 2)]
  omega

lemma nlCount_strConcat (l : List String) :
    nlCount (strConcat l) = (l.map nlCount).sum := by
  induction l with
  | nil => rfl
  | cons s rest ih => simp [strConcat, nlCount_append, ih]

lemma strConcat_append (l1 l2 : List String) :
    strConcat (l1 ++ l2) = strConcat l1 ++ strConcat l2 := by
  induction l1 with
  | nil => simp [strConcat]
  | cons s rest ih => simp [strConcat, ih, String.append_assoc]

lemma cue_nl_sum (segs : List Segment) :
    ((segs.map cueBlock).map nlCount).sum
      = 3 * segs.length + (segs.map (fun seg => nlCount seg.text)).sum := by
  induction segs with
  | nil => rfl
  | cons seg rest ih =>
    simp only [List.map_cons, List.sum_cons, ih, nlCount_cueBlock,
      List.length_cons]
    ring

lemma nlCount_create_vtt (segs : List Segment) :
    nlCount (create_vtt segs)
      = 2 + 3 * segs.length + (segs.map (fun seg => nlCount seg.text)).sum := by
  have hlay := create_vtt_foldl segs "WEBVTT\n\n"
  unfold create_vtt
  rw [hlay, nlCount_append, (by decide : nlCount "WEBVTT\n\n" = 2),
    nlCount_strConcat, cue_nl_sum]
  omega

/-- C10: `create_vtt` embeds each segment's text verbatim, with no
escaping or newline sanitization; consequently the emitted file has
exactly `2 + 3N` newline characters (the prescribed layout for `N` cue
blocks) when no segment text contains a newline, and strictly more as
soon as some segment text contains one. -/
theorem create_vtt_text_verbatim_newlines :
    (∀ (segs : List Segment), ∀ seg ∈ segs,
      ∃ pre post : String, create_vtt segs = pre ++ seg.text ++ post) ∧
    (∀ segs : List Segment, (∀ seg ∈ segs, nlCount seg.text = 0) →
      nlCount (create_vtt segs) = 2 + 3 * segs.length) ∧
    (∀ segs : List Segment, (∃ seg ∈ segs, 0 < nlCount seg.text) →
      2 + 3 * segs.length < nlCount (create_vtt segs)) := by
  refine ⟨?_, ?_, ?_⟩
  · intro segs seg hmem
    obtain ⟨l1, l2, rfl⟩ := List.append_of_mem hmem
    refine ⟨"WEBVTT\n\n" ++ strConcat (l1.map cueBlock)
        ++ (format_timestamp seg.start ++ " --> "
            ++ format_timestamp seg.«end» ++ "\n"),
      "\n\n" ++ strConcat (l2.map cueBlock), ?_⟩
    have h := create_vtt_foldl (l1 ++ seg :: l2) "WEBVTT\n\n"
    unfold create_vtt
    rw [h, List.map_append, strConcat_append, List.map_cons]
    simp only [strConcat, cueBlock]
    simp only [String.append_assoc]
  · intro segs hall
    rw [nlCount_create_vtt]
    have hz : (segs.map (fun seg => nlCount seg.text)).sum = 0 := by
      refine List.sum_eq_zero ?_
      intro y hy
      obtain ⟨seg, hseg, rfl⟩ := List.mem_map.mp hy
      exact hall seg hseg
    omega
  · rintro segs ⟨seg, hmem, hpos⟩
    rw [nlCount_create_vtt]
    have hx : nlCount seg.text ≤ (segs.map (fun seg => nlCount seg.text)).sum :=
      List.single_le_sum (fun y _ => Nat.zero_le y) _
        (List.mem_map.mpr ⟨seg, hmem, rfl⟩)
    omega

/-- Witness for C10: a newline-free text gives the prescribed newline
count; a text containing a newline exceeds it; and the text is embedded
verbatim. -/
theorem create_vtt_text_verbatim_newlines_witness :
    (∃ pre post : String,
      create_vtt [(⟨0, 1, "plain"⟩ : Segment)]
        = pre ++ (⟨0, 1, "plain"⟩ : Segment).text ++ post) ∧
    nlCount (create_vtt [(⟨0, 1, "plain"⟩ : Segment)])
      = 2 + 3 * ([(⟨0, 1, "plain"⟩ : Segment)]).length ∧
    2 + 3 * ([(⟨0, 1, "one\ntwo"⟩ : Segment)]).length
      < nlCount (create_vtt [(⟨0, 1, "one\ntwo"⟩ : Segment)]) :=
  ⟨create_vtt_text_verbatim_newlines.1 _ _ (by simp),
    create_vtt_text_verbatim_newlines.2.1 _ (by decide),
    create_vtt_text_verbatim_newlines.2.2 _ ⟨⟨0, 1, "one\ntwo"⟩, by simp, by decide⟩⟩

/-- C6: end-to-end scenario — segments `(0, 1.2, "Hello")` and
`(1.2, 3, "World")`, translated to French as `"Bonjour"` and `"Monde"`,
produce exactly the claimed file contents. -/
theorem end_to_end_french :
    subtitle_job
        (fun s _ => if s = "Hello" then Except.ok "Bonjour"
          else if s = "World" then Except.ok "Monde" else Except.ok s)
        [⟨0, (1.2 : ℚ), "Hello"⟩, ⟨(1.2 : ℚ), 3, "World"⟩] "fr"
      = Except.ok
          "WEBVTT\n\n00:00:00.000 --> 00:00:01.200\nBonjour\n\n00:00:01.200 --> 00:00:03.000\nMonde\n\n" := by
  have h0 : format_timestamp 0 = "00:00:00.000" := by
    simp only [format_timestamp, pyFloorDiv, pyMod, pytrunc]
    norm_num
    decide
  have h12 : format_timestamp (1.2 : ℚ) = "00:00:01.200" := by
    simp only [format_timestamp, pyFloorDiv, pyMod, pytrunc]
    norm_num
    decide
  have h3 : format_timestamp (3 : ℚ) = "00:00:03.000" := by
    simp only [format_timestamp, pyFloorDiv, pyMod, pytrunc]
    norm_num
    decide
  show Except.ok
      (create_vtt [⟨0, (1.2 : ℚ), "Bonjour"⟩, ⟨(1.2 : ℚ), 3, "Monde"⟩]) = _
  simp only [create_vtt, List.foldl_cons, List.foldl_nil, cueBlock, h0, h12, h3]
  rfl

/-- C7 counterexample: when the transcoder executable is unavailable,
`extract_audio` does not return normally — the `FileNotFoundError`
raised by `subprocess.run` propagates. -/
theorem extract_audio_missing_ffmpeg_raises :
    extract_audio (fun _ => RunOutcome.execNotFound) "video.mp4" "audio.mp3"
      = Except.error PyExc.fileNotFoundError ∧
    extract_audio (fun _ => RunOutcome.execNotFound) "video.mp4" "audio.mp3"
      ≠ Except.ok () :=
  ⟨rfl, fun h => Except.noConfusion h⟩

/-- C7 amended: `extract_audio` is silent about the transcoder's exit
status — whenever the executable runs to completion it returns normally,
whatever the exit code (e.g. when the input has no audio stream); but
when the executable cannot be found, the `FileNotFoundError` raised by
`subprocess.run` propagates to the caller. -/
theorem extract_audio_outcome (out : RunOutcome) (v a : String) :
    extract_audio (fun _ => out) v a
      = match out with
        | RunOutcome.completed _ => Except.ok ()
        | RunOutcome.execNotFound => Except.error PyExc.fileNotFoundError := by
  cases out <;> rfl

/-- C8: translation failure is atomic for the job — if the translation
call fails for any segment, `translate_segments` propagates the failure
(no translated list is produced) and the subsequent `create_vtt` step
never runs, so no subtitle file contents exist. -/
theorem translation_failure_aborts
    (tr : String → String → Except String String) (segs : List Segment)
    (lang : String)
    (h : ∃ seg ∈ segs, ∃ e, tr seg.text lang = Except.error e) :
    (∃ e, translate_segments tr segs lang = Except.error e) ∧
    (∃ e, subtitle_job tr segs lang = Except.error e) := by
  obtain ⟨e, he⟩ := translate_segments_error_of_mem tr lang segs h
  exact ⟨⟨e, he⟩, ⟨e, by simp [subtitle_job, he]⟩⟩

/-- Witness for C8: one segment whose translation call fails. -/
theorem translation_failure_aborts_witness :
    (∃ e, translate_segments
        (fun _ _ => (Except.error "rate limit" : Except String String))
        [(⟨0, 1, "x"⟩ : Segment)] "es" = Except.error e) ∧
    (∃ e, subtitle_job
        (fun _ _ => (Except.error "rate limit" : Except String String))
        [(⟨0, 1, "x"⟩ : Segment)] "es" = Except.error e) :=
  translation_failure_aborts _ _ _ ⟨⟨0, 1, "x"⟩, by simp, "rate limit", rfl⟩
